import Mathlib

/-!
Verification of the lunar-command-center autonomy core.

Shallow embedding of the four algorithmic components:
- `object_tracker.py` (IoU multi-object tracker), embedded over `ℚ`;
- `mapping_system_laptop.py` / `mapping_system.py` (pose dead reckoning and
  landmark fusion), embedded over `ℝ`;
- `decision_system.py` (sector-based reactive decision), embedded over `ℝ`.

Python floats are idealized as exact rationals / reals; `math.atan2` is
embedded as `Complex.arg`, `math.hypot` as the square root of the sum of
squares.
-/

namespace LunarCore

/-! ### object_tracker.py : data model (over ℚ) -/

/-- Bounding box `[x1, y1, x2, y2]` as used throughout `object_tracker.py`. -/
structure Box where
  x1 : ℚ
  y1 : ℚ
  x2 : ℚ
  y2 : ℚ
  deriving DecidableEq

/-- Track states `TENTATIVE = 0`, `CONFIRMED = 1`, `LOST = 2`. -/
inductive TrackState where
  | TENTATIVE
  | CONFIRMED
  | LOST
  deriving DecidableEq

/-- One detection record consumed by `ObjectTracker.update`. -/
structure Detection where
  box : Box
  depth : ℚ
  label : String
  deriving DecidableEq

/-- State of one `Track` object (`object_tracker.py`, class `Track`). -/
structure Track where
  track_id : Nat
  box : Box
  depth : ℚ
  label : String
  state : TrackState
  hits : Nat
  misses : Nat
  total_observations : Nat
  depth_history : List ℚ
  deriving DecidableEq

/-- `Track.__init__`: a fresh track from a detection; the detection counts
as the first hit (`hits = 1`). `id` is the already-incremented counter. -/
def Track.new (id : Nat) (box : Box) (depth : ℚ) (label : String) : Track :=
  { track_id := id, box := box, depth := depth, label := label,
    state := .TENTATIVE, hits := 1, misses := 0, total_observations := 1,
    depth_history := [depth] }

/-- `Track.update`: refresh the track with a matched detection
(append depth, cap history at 10 by popping the front, bump hits,
reset misses). -/
def Track.updateDet (t : Track) (box : Box) (depth : ℚ) : Track :=
  let hist := t.depth_history ++ [depth]
  let hist := if hist.length > 10 then hist.drop 1 else hist
  { t with box := box, depth := depth, depth_history := hist,
           hits := t.hits + 1, misses := 0,
           total_observations := t.total_observations + 1 }

/-- `Track.mark_missed`: one more consecutive miss, hit streak resets. -/
def Track.mark_missed (t : Track) : Track :=
  { t with misses := t.misses + 1, hits := 0 }

/-- `Track.get_average_depth`: mean of the bounded depth history. -/
def Track.get_average_depth (t : Track) : ℚ :=
  if t.depth_history = [] then t.depth
  else t.depth_history.sum / (t.depth_history.length : ℚ)

/-- Intersection area of two boxes (`compute_iou`, intermediate value). -/
def interArea (box1 box2 : Box) : ℚ :=
  let x1 := max box1.x1 box2.x1
  let y1 := max box1.y1 box2.y1
  let x2 := min box1.x2 box2.x2
  let y2 := min box1.y2 box2.y2
  max 0 (x2 - x1) * max 0 (y2 - y1)

/-- Union area of two boxes (`compute_iou`, intermediate value). -/
def unionArea (box1 box2 : Box) : ℚ :=
  (box1.x2 - box1.x1) * (box1.y2 - box1.y1)
    + (box2.x2 - box2.x1) * (box2.y2 - box2.y1) - interArea box1 box2

/-- `compute_iou` from `object_tracker.py`: intersection over union, with a
guard returning `0.0` whenever the union area is `≤ 0`. -/
def compute_iou (box1 box2 : Box) : ℚ :=
  if unionArea box1 box2 ≤ 0 then 0
  else interArea box1 box2 / unionArea box1 box2

/-! ### object_tracker.py : greedy IoU matching -/

/-- Initial IoU matrix entry (`iou_matrix[t_idx, d_idx]`): the IoU of the
track's and detection's boxes when the labels agree, `0` otherwise
(cross-label pairs are never filled in); out-of-range indices read `0`. -/
def initMatrix (tracks : List Track) (dets : List Detection) (t d : Nat) : ℚ :=
  match tracks[t]?, dets[d]? with
  | some tr, some de => if tr.label = de.label then compute_iou tr.box de.box else 0
  | _, _ => 0

/-- Row-major enumeration of all `(t_idx, d_idx)` index pairs, mirroring
`numpy`'s flat index order used by `argmax` / `unravel_index`. -/
def allPairs (nt nd : Nat) : List (Nat × Nat) :=
  (List.range nt).foldr (fun t acc => ((List.range nd).map (fun d => (t, d))) ++ acc) []

/-- First row-major position of the maximal matrix entry
(`np.unravel_index(iou_matrix.argmax(), ...)`): a strict-improvement fold
keeps the earliest occurrence of the maximum. -/
def argmaxRM (m : Nat → Nat → ℚ) : List (Nat × Nat) → Option (Nat × Nat)
  | [] => none
  | p :: ps => some (ps.foldl (fun best q => if m best.1 best.2 < m q.1 q.2 then q else best) p)

/-- Zero out row `t` and column `d` of the matrix
(`iou_matrix[t_idx, :] = 0; iou_matrix[:, d_idx] = 0`). -/
def zeroRC (m : Nat → Nat → ℚ) (t d : Nat) : Nat → Nat → ℚ :=
  fun i j => if i = t ∨ j = d then 0 else m i j

/-- The greedy matching `while True` loop of `ObjectTracker.update`:
take the globally maximal entry, stop if it is below the threshold,
otherwise commit the pair, zero its row and column, repeat. `fuel` bounds
the recursion; with a positive threshold the loop always breaks before the
fuel (`nt * nd + 1`) is exhausted, so the embedding is exact there. -/
def greedyLoop (thr : ℚ) (nt nd : Nat) : Nat → (Nat → Nat → ℚ) → List (Nat × Nat)
  | 0, _ => []
  | fuel + 1, m =>
    match argmaxRM m (allPairs nt nd) with
    | none => []
    | some (t, d) =>
      if m t d < thr then []
      else (t, d) :: greedyLoop thr nt nd fuel (zeroRC m t d)

/-- Committed matches of one `ObjectTracker.update` call, in commit order.
The matching block is guarded by `if self.tracks and detections`. -/
def greedyMatches (thr : ℚ) (tracks : List Track) (dets : List Detection) :
    List (Nat × Nat) :=
  if tracks = [] ∨ dets = [] then []
  else greedyLoop thr tracks.length dets.length (tracks.length * dets.length + 1)
    (initMatrix tracks dets)

/-! ### object_tracker.py : ObjectTracker.update -/

/-- Replace the element at one position of a list, leaving every other
position unchanged (in-place mutation of `self.tracks[t_idx]`). -/
def modifyIdx (f : Track → Track) : Nat → List Track → List Track
  | _, [] => []
  | 0, t :: ts => f t :: ts
  | n + 1, t :: ts => t :: modifyIdx f n ts

/-- Apply each committed match: `self.tracks[t_idx].update(det['box'],
det['depth'])`, in commit order. -/
def applyMatches (dets : List Detection) : List (Nat × Nat) → List Track → List Track
  | [], ts => ts
  | (t, d) :: rest, ts =>
    applyMatches dets rest
      (match dets[d]? with
       | some de => modifyIdx (fun tr => tr.updateDet de.box de.depth) t ts
       | none => ts)

/-- Step 2 of `ObjectTracker.update`: every track whose index is not a
matched row gets `mark_missed()`; the first argument is the index of the
head of the remaining list. -/
def markPass (ms : List (Nat × Nat)) : Nat → List Track → List Track
  | _, [] => []
  | i, t :: ts =>
    (if ms.any (fun q => q.1 = i) then t else t.mark_missed) :: markPass ms (i + 1) ts

/-- Step 3 of `ObjectTracker.update`: one new `Track` per unmatched
detection, in detection order, drawing fresh ids from the counter
(`Track._id_counter` is incremented before being assigned). Returns the
new tracks and the final counter. -/
def spawnPass (ms : List (Nat × Nat)) : Nat → Nat → List Detection → List Track × Nat
  | _, counter, [] => ([], counter)
  | i, counter, de :: ds =>
    if ms.any (fun q => q.2 = i) then spawnPass ms (i + 1) counter ds
    else
      let res := spawnPass ms (i + 1) (counter + 1) ds
      (Track.new (counter + 1) de.box de.depth de.label :: res.1, res.2)

/-- Step 4 of `ObjectTracker.update`: promote a Tentative track with enough
consecutive hits to Confirmed, then demote any track with enough
consecutive misses to Lost. -/
def stepTrackState (minHits maxMisses : Nat) (t : Track) : Track :=
  let t1 := if t.state = .TENTATIVE ∧ minHits ≤ t.hits then { t with state := .CONFIRMED } else t
  if maxMisses ≤ t1.misses then { t1 with state := .LOST } else t1

/-- One entry of the confirmed-track list returned by
`ObjectTracker.update`. -/
structure ConfirmedOut where
  track_id : Nat
  box : Box
  depth : ℚ
  label : String
  observation_count : Nat
  deriving DecidableEq

/-- Tracker state (`ObjectTracker.__init__`); the process-wide
`Track._id_counter` is carried as an explicit field. -/
structure ObjectTracker where
  iou_threshold : ℚ
  min_hits_to_confirm : Nat
  max_misses_to_lose : Nat
  tracks : List Track
  id_counter : Nat
  deriving DecidableEq

/-- `ObjectTracker.update(detections)`: greedy matching, miss marking,
spawning of new tracks, state transitions, purge of Lost tracks, and the
confirmed-track output list. -/
def ObjectTracker.update (tr : ObjectTracker) (dets : List Detection) :
    ObjectTracker × List ConfirmedOut :=
  let ms := greedyMatches tr.iou_threshold tr.tracks dets
  let tracks1 := applyMatches dets ms tr.tracks
  let tracks2 := markPass ms 0 tracks1
  let spawned := spawnPass ms 0 tr.id_counter dets
  let tracks3 := tracks2 ++ spawned.1
  let tracks4 := tracks3.map (stepTrackState tr.min_hits_to_confirm tr.max_misses_to_lose)
  let tracks5 := tracks4.filter (fun t => t.state ≠ .LOST)
  let out := (tracks5.filter (fun t => t.state = .CONFIRMED)).map (fun t =>
    { track_id := t.track_id, box := t.box, depth := t.get_average_depth,
      label := t.label, observation_count := t.total_observations })
  ({ tr with tracks := tracks5, id_counter := spawned.2 }, out)

/-! ### mapping_system_laptop.py : pose dead reckoning -/

/-- Calibrated top speed (`MAX_SPEED_MPS = 1.22`) applied to the throttle:
`v = throttle * MAX_SPEED_MPS`. -/
noncomputable def vOf (throttle : ℝ) : ℝ := throttle * 1.22

open Classical in
/-- Turn rate of the `'jetracer'` (Ackermann) branch of
`MapManagerLaptop.update_pose`: zero unless `|v| > 0.01`; otherwise the
curvature is `steering * (1/1.43)` for a left turn (`steering > 0`) and
`|steering| * (1/1.085)` for a right turn, with `w = v * k` resp.
`w = -v * k`. -/
noncomputable def omegaJetracer (v steering : ℝ) : ℝ :=
  if |v| > 0.01 then
    if steering > 0 then v * (steering * (1 / 1.43))
    else -v * (|steering| * (1 / 1.085))
  else 0

open Classical in
/-- Turn rate of the UGV / skid-steer branch of
`MapManagerLaptop.update_pose`: `w = steering * MAX_TURN_LEFT_RADPS`
(`0.853`) when `steering > 0`, else `w = steering * MAX_TURN_RIGHT_RADPS`
(`1.124`) followed by `if steering < 0: w = -w`. -/
noncomputable def omegaUgv (steering : ℝ) : ℝ :=
  if steering > 0 then steering * 0.853
  else
    let w := steering * 1.124
    if steering < 0 then -w else w

/-- One landmark record of `MapManagerLaptop.craters`. -/
structure Landmark where
  id : Nat
  x : ℝ
  y : ℝ
  radius : ℝ
  label : String
  track_id : Option Nat
  observation_count : Nat
  locked : Bool

/-- State of a `MapManagerLaptop` instance. -/
structure MapState where
  width_m : ℝ
  height_m : ℝ
  kinematics : String
  x : ℝ
  y : ℝ
  theta : ℝ
  craters : List Landmark
  crater_id_counter : Nat

open Classical in
/-- `MapManagerLaptop.update_pose(throttle, steering, dt)`: pick the turn
rate for the configured kinematics, Euler-integrate the unicycle model,
and hard-clamp `x`, `y` to the map bounds; `theta` is left unwrapped. -/
noncomputable def MapState.update_pose (st : MapState) (throttle steering dt : ℝ) :
    MapState :=
  let v := vOf throttle
  let w := if st.kinematics = "jetracer" then omegaJetracer v steering else omegaUgv steering
  let x := st.x + v * Real.cos st.theta * dt
  let y := st.y + v * Real.sin st.theta * dt
  { st with
    x := max 0 (min st.width_m x),
    y := max 0 (min st.height_m y),
    theta := st.theta + w * dt }

/-- State of the simpler `MapManager` (`mapping_system.py`). -/
structure MapManagerState where
  width_m : ℝ
  height_m : ℝ
  x : ℝ
  y : ℝ
  theta : ℝ

/-- `MapManager.update_pose` (`mapping_system.py`): fixed calibration
constants `MAX_SPEED_MPS = 0.8`, `MAX_TURN_RADPS = 2.5`, Euler step, then
the same silent clamp of `x`, `y` to the map bounds. -/
noncomputable def MapManagerState.update_pose (st : MapManagerState)
    (throttle steering dt : ℝ) : MapManagerState :=
  let speed := throttle * 0.8
  let omega := steering * 2.5
  let x := st.x + speed * Real.cos st.theta * dt
  let y := st.y + speed * Real.sin st.theta * dt
  { st with
    x := max 0 (min st.width_m x),
    y := max 0 (min st.height_m y),
    theta := st.theta + omega * dt }

/-! ### mapping_system_laptop.py : landmark fusion -/

/-- Track-id tier of `_add_unique_landmark`: blend the matched landmark
(`pos = pos_old*0.7 + pos_new*0.3`), bump `observation_count`, and lock it
once the count reaches `MAX_OBSERVATIONS = 10`. -/
noncomputable def blendTrack (x y : ℝ) (c : Landmark) : Landmark :=
  let c1 := { c with
    x := c.x * 0.7 + x * 0.3,
    y := c.y * 0.7 + y * 0.3,
    observation_count := c.observation_count + 1 }
  if 10 ≤ c1.observation_count then { c1 with locked := true } else c1

/-- First tier of `_add_unique_landmark`: scan for the first landmark with
the given `track_id`. A locked match ends the call unchanged; an unlocked
match is blended via `blendTrack`. `none` means no landmark carried the id
and the call falls through to the proximity tier. -/
noncomputable def fuseByTrackId (tid : Nat) (x y : ℝ) :
    List Landmark → Option (List Landmark)
  | [] => none
  | c :: rest =>
    if c.track_id = some tid then
      some (if c.locked then c :: rest else blendTrack x y c :: rest)
    else (fuseByTrackId tid x y rest).map (c :: ·)

open Classical in
/-- Second tier of `_add_unique_landmark`: scan for the first unlocked
landmark of the same label within `MERGE_RADIUS = 0.6` of world distance
and blend only its position (`observation_count` and `locked` are left
untouched by this tier). `none` means no merge happened. -/
noncomputable def fuseByProximity (label : String) (x y : ℝ) :
    List Landmark → Option (List Landmark)
  | [] => none
  | c :: rest =>
    if c.label = label ∧ c.locked = false ∧ Real.sqrt ((c.x - x) ^ 2 + (c.y - y) ^ 2) < 0.6 then
      some ({ c with x := c.x * 0.7 + x * 0.3, y := c.y * 0.7 + y * 0.3 } :: rest)
    else (fuseByProximity label x y rest).map (c :: ·)

/-- `MapManagerLaptop._add_unique_landmark`: the two deduplication tiers in
priority order, falling back to creation of a fresh unlocked landmark with
`observation_count = 1` (the `observation_count` argument is accepted but
never used, exactly as in the source). -/
noncomputable def MapState.add_unique_landmark (st : MapState) (x y radius : ℝ)
    (label : String) (track_id : Option Nat) (observation_count : Nat) : MapState :=
  let tier1 : Option (List Landmark) :=
    match track_id with
    | some tid => fuseByTrackId tid x y st.craters
    | none => none
  match tier1 with
  | some cs => { st with craters := cs }
  | none =>
    match fuseByProximity label x y st.craters with
    | some cs => { st with craters := cs }
    | none =>
      { st with
        craters := st.craters ++
          [{ id := st.crater_id_counter, x := x, y := y, radius := radius,
             label := label, track_id := track_id, observation_count := 1,
             locked := false }],
        crater_id_counter := st.crater_id_counter + 1 }

/-- One fused track consumed by `MapManagerLaptop.update_craters`
(dict with `box`, `depth`, `label`, optional `track_id`, optional
`radius_m`, and an `observation_count` defaulting to 1). -/
structure VisibleCrater where
  box : Box
  depth : ℚ
  label : String
  track_id : Option Nat
  radius_m : Option ℝ
  observation_count : Nat

/-- Bearing offset computed by `MapManagerLaptop.update_craters`: the
horizontal box center, normalized against the image midline, scaled by
the fixed ±0.5 rad field-of-view assumption (left on screen is a
positive angle). -/
noncomputable def angle_offset_of (box : Box) (img_width : ℝ) : ℝ :=
  let MID_PIX := img_width / 2
  let x_cen := ((box.x1 : ℝ) + (box.x2 : ℝ)) / 2
  let x_norm := (x_cen - MID_PIX) / MID_PIX
  let angle_offset := -x_norm * 0.5
  angle_offset

/-- World position of one fused track, as computed inside
`MapManagerLaptop.update_craters` from the bearing offset, the depth, and
the current pose. -/
noncomputable def projectToGlobal (poseX poseY theta : ℝ) (box : Box)
    (depth img_width : ℝ) : ℝ × ℝ :=
  let angle_offset := angle_offset_of box img_width
  let loc_x := depth * Real.cos angle_offset
  let loc_y := depth * Real.sin angle_offset
  (poseX + (loc_x * Real.cos theta - loc_y * Real.sin theta),
   poseY + (loc_x * Real.sin theta + loc_y * Real.cos theta))

/-- Default landmark radius of `update_craters` when no segmentation
radius is provided: `0.3`, overridden to `0.2` for `'alien'` and `0.4`
for `'water-sight'`. -/
noncomputable def radiusOf (radius_m : Option ℝ) (label : String) : ℝ :=
  match radius_m with
  | some r => r
  | none => if label = "alien" then 0.2 else if label = "water-sight" then 0.4 else 0.3

/-- `MapManagerLaptop.update_craters(visible_craters, img_width)`: project
each fused track to world coordinates and feed it through
`_add_unique_landmark`. -/
noncomputable def MapState.update_craters (st : MapState)
    (visible : List VisibleCrater) (img_width : ℝ) : MapState :=
  visible.foldl (fun s c =>
    let g := projectToGlobal s.x s.y s.theta c.box (c.depth : ℝ) img_width
    s.add_unique_landmark g.1 g.2 (radiusOf c.radius_m c.label) c.label
      c.track_id c.observation_count) st

/-! ### decision_system.py : sector-based decision -/

/-- Four-quadrant arctangent: `math.atan2(y, x)` embedded as the complex
argument of `x + y i`, with range `(-π, π]`. -/
noncomputable def atan2 (y x : ℝ) : ℝ := Complex.arg (Complex.mk x y)

/-- The navigation decisions returned by `DecisionSystem.decide`. -/
inductive Decision where
  | go_straight
  | turn_left
  | turn_right
  | stop
  deriving DecidableEq

/-- Robot pose as consumed by `DecisionSystem.decide`. -/
structure Pose where
  x : ℝ
  y : ℝ
  theta : ℝ

/-- Euclidean distance from the pose to a landmark
(`math.hypot(dx, dy)`). -/
noncomputable def distOf (p : Pose) (c : Landmark) : ℝ :=
  Real.sqrt ((c.x - p.x) ^ 2 + (c.y - p.y) ^ 2)

/-- Bearing of a landmark relative to the heading, as computed by
`DecisionSystem.decide`: `atan2(dy, dx) - theta`, renormalized through
`atan2(sin(angle), cos(angle))`. -/
noncomputable def bearingOf (p : Pose) (c : Landmark) : ℝ :=
  atan2 (Real.sin (atan2 (c.y - p.y) (c.x - p.x) - p.theta))
        (Real.cos (atan2 (c.y - p.y) (c.x - p.x) - p.theta))

/-- Front sector: `|bearing| < 0.35` rad. -/
noncomputable def frontSector (p : Pose) (c : Landmark) : Prop :=
  |bearingOf p c| < 0.35

/-- Left sector: positive bearing, front excluded (the `elif` branch). -/
noncomputable def leftSector (p : Pose) (c : Landmark) : Prop :=
  ¬|bearingOf p c| < 0.35 ∧ 0 < bearingOf p c

/-- Right sector: the remaining landmarks (non-positive bearing, front
excluded). -/
noncomputable def rightSector (p : Pose) (c : Landmark) : Prop :=
  ¬|bearingOf p c| < 0.35 ∧ ¬0 < bearingOf p c

/-- A landmark blocks when its distance is below
`radius + safe_margin`. -/
noncomputable def isBlocking (margin : ℝ) (p : Pose) (c : Landmark) : Prop :=
  distOf p c < c.radius + margin

open Classical in
/-- `DecisionSystem.decide(pose, craters)`: partition the landmarks into
the three sectors and apply the rule: a blocked front turns left if the
left sector is clear, else right if the right sector is clear, else
stops; a clear front goes straight. -/
noncomputable def DecisionSystem.decide (margin : ℝ) (p : Pose)
    (craters : List Landmark) : Decision :=
  if ∃ c ∈ craters, frontSector p c ∧ isBlocking margin p c then
    if ¬∃ c ∈ craters, leftSector p c ∧ isBlocking margin p c then .turn_left
    else if ¬∃ c ∈ craters, rightSector p c ∧ isBlocking margin p c then .turn_right
    else .stop
  else .go_straight

/-! ### C9 : compute_iou -/

/-- C9: `compute_iou` returns `1` for two identical boxes of positive
area, `0` for disjoint boxes, is symmetric, and returns `0` whenever the
union area is `≤ 0`; it is a total function and never divides by zero. -/
theorem C9_compute_iou_correct :
    (∀ b : Box, b.x1 < b.x2 → b.y1 < b.y2 → compute_iou b b = 1) ∧
    (∀ a b : Box,
      min a.x2 b.x2 ≤ max a.x1 b.x1 ∨ min a.y2 b.y2 ≤ max a.y1 b.y1 →
      compute_iou a b = 0) ∧
    (∀ a b : Box, compute_iou a b = compute_iou b a) ∧
    (∀ a b : Box, unionArea a b ≤ 0 → compute_iou a b = 0) := by
  refine ⟨?_, ?_, ?_, ?_⟩
  · intro b hx hy
    have harea : interArea b b = (b.x2 - b.x1) * (b.y2 - b.y1) := by
      simp only [interArea, max_self, min_self]
      rw [max_eq_right (le_of_lt (sub_pos.mpr hx)),
          max_eq_right (le_of_lt (sub_pos.mpr hy))]
    have hu : unionArea b b = (b.x2 - b.x1) * (b.y2 - b.y1) := by
      simp only [unionArea, harea]; ring
    have hpos : 0 < (b.x2 - b.x1) * (b.y2 - b.y1) :=
      mul_pos (sub_pos.mpr hx) (sub_pos.mpr hy)
    simp only [compute_iou, hu, harea]
    rw [if_neg (not_le.mpr hpos), div_self (ne_of_gt hpos)]
  · intro a b h
    have hi : interArea a b = 0 := by
      rcases h with h | h
      · simp only [interArea]
        rw [max_eq_left (by linarith : min a.x2 b.x2 - max a.x1 b.x1 ≤ 0), zero_mul]
      · simp only [interArea]
        rw [max_eq_left (by linarith : min a.y2 b.y2 - max a.y1 b.y1 ≤ 0), mul_zero]
    simp only [compute_iou, hi]
    split_ifs <;> simp
  · intro a b
    simp only [compute_iou, unionArea, interArea,
      max_comm a.x1 b.x1, max_comm a.y1 b.y1, min_comm a.x2 b.x2, min_comm a.y2 b.y2,
      add_comm ((a.x2 - a.x1) * (a.y2 - a.y1)) ((b.x2 - b.x1) * (b.y2 - b.y1))]
  · intro a b h
    simp only [compute_iou]
    rw [if_pos h]

/-- Witness for C9 at concrete boxes: `[0,0,2,2]` against itself, against
the disjoint `[5,5,6,6]`, and the degenerate `[0,0,0,0]`. -/
theorem C9_compute_iou_correct_witness :
    ((0 : ℚ) < 2 ∧ compute_iou ⟨0, 0, 2, 2⟩ ⟨0, 0, 2, 2⟩ = 1) ∧
    (min (2 : ℚ) 6 ≤ max 0 5 ∧ compute_iou ⟨0, 0, 2, 2⟩ ⟨5, 5, 6, 6⟩ = 0) ∧
    compute_iou ⟨0, 0, 2, 2⟩ ⟨5, 5, 6, 6⟩ = compute_iou ⟨5, 5, 6, 6⟩ ⟨0, 0, 2, 2⟩ ∧
    (unionArea ⟨0, 0, 0, 0⟩ ⟨0, 0, 0, 0⟩ ≤ 0 ∧ compute_iou ⟨0, 0, 0, 0⟩ ⟨0, 0, 0, 0⟩ = 0) :=
  ⟨⟨by norm_num, C9_compute_iou_correct.1 ⟨0, 0, 2, 2⟩ (by norm_num) (by norm_num)⟩,
   ⟨by norm_num, C9_compute_iou_correct.2.1 ⟨0, 0, 2, 2⟩ ⟨5, 5, 6, 6⟩ (Or.inl (by norm_num))⟩,
   C9_compute_iou_correct.2.2.1 ⟨0, 0, 2, 2⟩ ⟨5, 5, 6, 6⟩,
   ⟨by norm_num [unionArea, interArea],
    C9_compute_iou_correct.2.2.2 ⟨0, 0, 0, 0⟩ ⟨0, 0, 0, 0⟩ (by norm_num [unionArea, interArea])⟩⟩

/-! ### C2 : landmark lock stability -/

/-- The track-id tier leaves a locked landmark at its position in the
list untouched. -/
theorem fuseByTrackId_locked_stable (tid : Nat) (x y : ℝ) :
    ∀ (l : List Landmark) (i : Nat) (c : Landmark), l[i]? = some c →
      c.locked = true → ∀ cs, fuseByTrackId tid x y l = some cs → cs[i]? = some c := by
  intro l
  induction l with
  | nil => intro i c hc; simp at hc
  | cons c0 rest ih =>
    intro i c hc hl cs hcs
    by_cases h0 : c0.track_id = some tid
    · simp only [fuseByTrackId, if_pos h0, Option.some.injEq] at hcs
      cases i with
      | zero =>
        simp only [List.getElem?_cons_zero, Option.some.injEq] at hc
        subst hc
        rw [← hcs]
        simp [hl]
      | succ j =>
        rw [← hcs]
        by_cases hlk : c0.locked <;> simp [hlk, List.getElem?_cons_succ] at hc ⊢ <;> exact hc
    · simp only [fuseByTrackId, if_neg h0, Option.map_eq_some'] at hcs
      obtain ⟨cs', hcs', rfl⟩ := hcs
      cases i with
      | zero =>
        simp only [List.getElem?_cons_zero, Option.some.injEq] at hc ⊢
        exact hc
      | succ j =>
        simp only [List.getElem?_cons_succ] at hc ⊢
        exact ih j c hc hl cs' hcs'

/-- The proximity tier leaves a locked landmark at its position in the
list untouched (locked landmarks are skipped by the scan). -/
theorem fuseByProximity_locked_stable (label : String) (x y : ℝ) :
    ∀ (l : List Landmark) (i : Nat) (c : Landmark), l[i]? = some c →
      c.locked = true → ∀ cs, fuseByProximity label x y l = some cs → cs[i]? = some c := by
  intro l
  induction l with
  | nil => intro i c hc; simp at hc
  | cons c0 rest ih =>
    intro i c hc hl cs hcs
    by_cases h0 : c0.label = label ∧ c0.locked = false ∧
        Real.sqrt ((c0.x - x) ^ 2 + (c0.y - y) ^ 2) < 0.6
    · simp only [fuseByProximity, if_pos h0, Option.some.injEq] at hcs
      cases i with
      | zero =>
        simp only [List.getElem?_cons_zero, Option.some.injEq] at hc
        subst hc
        rw [hl] at h0
        exact absurd h0.2.1 (by simp)
      | succ j =>
        rw [← hcs]
        simp only [List.getElem?_cons_succ] at hc ⊢
        exact hc
    · simp only [fuseByProximity, if_neg h0, Option.map_eq_some'] at hcs
      obtain ⟨cs', hcs', rfl⟩ := hcs
      cases i with
      | zero =>
        simp only [List.getElem?_cons_zero, Option.some.injEq] at hc ⊢
        exact hc
      | succ j =>
        simp only [List.getElem?_cons_succ] at hc ⊢
        exact ih j c hc hl cs' hcs'

/-- One `_add_unique_landmark` call leaves a locked landmark at its list
position untouched, whichever tier fires. -/
theorem add_unique_landmark_locked_stable (st : MapState) (x y r : ℝ)
    (label : String) (tid : Option Nat) (obs : Nat) (i : Nat) (c : Landmark)
    (hc : st.craters[i]? = some c) (hl : c.locked = true) :
    (st.add_unique_landmark x y r label tid obs).craters[i]? = some c := by
  have hi : i < st.craters.length := by
    by_contra hge
    rw [List.getElem?_eq_none (le_of_not_lt hge)] at hc
    exact Option.noConfusion hc
  have happend : (st.craters ++
      [{ id := st.crater_id_counter, x := x, y := y, radius := r, label := label,
         track_id := tid, observation_count := 1, locked := false }] : List Landmark)[i]?
      = some c := by
    rw [List.getElem?_append_left hi]; exact hc
  unfold MapState.add_unique_landmark
  cases tid with
  | none =>
    cases hp : fuseByProximity label x y st.craters with
    | none => simpa [hp] using happend
    | some cs =>
      simpa [hp] using fuseByProximity_locked_stable label x y st.craters i c hc hl cs hp
  | some t =>
    cases ht : fuseByTrackId t x y st.craters with
    | none =>
      cases hp : fuseByProximity label x y st.craters with
      | none => simpa [ht, hp] using happend
      | some cs =>
        simpa [ht, hp] using fuseByProximity_locked_stable label x y st.craters i c hc hl cs hp
    | some cs =>
      simpa [ht] using fuseByTrackId_locked_stable t x y st.craters i c hc hl cs ht

/-- C2: once a landmark is locked (which the code enforces exactly when
`observation_count` has reached `MAX_OBSERVATIONS = 10`), no later
`update_craters` call, and no single fuse (`_add_unique_landmark`) call,
changes it at all — its `x`/`y` are stable and a fuse attempt matching it
by track id or by proximity is a silent no-op on that landmark. -/
theorem C2_locked_landmark_stable (st : MapState) (visible : List VisibleCrater)
    (img_width : ℝ) (i : Nat) (c : Landmark)
    (hc : st.craters[i]? = some c) (hl : c.locked = true) :
    (st.update_craters visible img_width).craters[i]? = some c ∧
    ∀ (x y r : ℝ) (label : String) (tid : Option Nat) (obs : Nat),
      (st.add_unique_landmark x y r label tid obs).craters[i]? = some c := by
  refine ⟨?_, fun x y r label tid obs => add_unique_landmark_locked_stable st x y r label tid obs i c hc hl⟩
  unfold MapState.update_craters
  induction visible generalizing st with
  | nil => simpa using hc
  | cons v vs ih =>
    simp only [List.foldl_cons]
    exact ih _ (add_unique_landmark_locked_stable _ _ _ _ _ _ _ i c hc hl)

/-- Concrete locked landmark used by the C2 witness. -/
noncomputable def lkC2 : Landmark :=
  { id := 0, x := 2, y := 2, radius := 0.3, label := "crater",
    track_id := some 7, observation_count := 10, locked := true }

/-- Concrete map state used by the C2 witness. -/
noncomputable def stC2 : MapState :=
  { width_m := 5, height_m := 5, kinematics := "ugv", x := 1, y := 1,
    theta := 0, craters := [lkC2], crater_id_counter := 1 }

/-- Witness for C2: a locked landmark survives an `update_craters` call
that fuses a detection matching its track id. -/
theorem C2_locked_landmark_stable_witness :
    (stC2.craters[0]? = some lkC2 ∧ lkC2.locked = true) ∧
    (stC2.update_craters
      [{ box := ⟨0, 0, 10, 10⟩, depth := 2, label := "crater", track_id := some 7,
         radius_m := none, observation_count := 3 }] 640).craters[0]? = some lkC2 :=
  ⟨⟨rfl, rfl⟩,
   (C2_locked_landmark_stable stC2
     [{ box := ⟨0, 0, 10, 10⟩, depth := 2, label := "crater", track_id := some 7,
        radius_m := none, observation_count := 3 }] 640 0 lkC2 rfl rfl).1⟩

/-! ### C6 : proximity-merge blending -/

/-- Landmark used by the C6 counterexample: unlocked, same label,
5 observations so far. -/
noncomputable def lkC6 : Landmark :=
  { id := 0, x := 1, y := 1, radius := 0.3, label := "crater",
    track_id := none, observation_count := 5, locked := false }

/-- Map state used by the C6 counterexample. -/
noncomputable def stC6 : MapState :=
  { width_m := 5, height_m := 5, kinematics := "ugv", x := 1, y := 1,
    theta := 0, craters := [lkC6], crater_id_counter := 1 }

/-- Counterexample to C6 as stated: fusing a same-label point without a
track id onto the unlocked landmark at the very same position takes the
proximity path, yet the landmark's `observation_count` stays at 5 — it is
not incremented to 6 as the claim asserts. -/
theorem C6_proximity_blend_counterexample :
    (stC6.add_unique_landmark 1 1 0.3 "crater" none 1).craters.map
      Landmark.observation_count = [5] ∧
    ¬(stC6.add_unique_landmark 1 1 0.3 "crater" none 1).craters.map
      Landmark.observation_count = [6] := by
  have hd : Real.sqrt ((lkC6.x - 1) ^ 2 + (lkC6.y - 1) ^ 2) < 0.6 := by
    simp only [lkC6]
    norm_num [Real.sqrt_zero]
  have h1 : fuseByProximity "crater" 1 1 [lkC6] =
      some [{ lkC6 with x := lkC6.x * 0.7 + 1 * 0.3, y := lkC6.y * 0.7 + 1 * 0.3 }] := by
    simp only [fuseByProximity]
    rw [if_pos ⟨rfl, rfl, hd⟩]
  constructor
  · simp only [MapState.add_unique_landmark, stC6, h1]
    simp [lkC6]
  · simp only [MapState.add_unique_landmark, stC6, h1]
    simp [lkC6]

/-- The track-id tier finds nothing when no landmark carries the id. -/
theorem fuseByTrackId_eq_none (tid : Nat) (x y : ℝ) :
    ∀ (l : List Landmark), (∀ cj ∈ l, cj.track_id ≠ some tid) →
      fuseByTrackId tid x y l = none := by
  intro l
  induction l with
  | nil => intro _; rfl
  | cons c0 rest ih =>
    intro h
    simp only [fuseByTrackId, if_neg (h c0 (List.mem_cons_self c0 rest)),
      ih (fun cj hcj => h cj (List.mem_cons_of_mem c0 hcj))]
    rfl

/-- The proximity tier blends the FIRST matching landmark in scan order:
if every landmark before position `i` fails the merge test (wrong label,
locked, or out of range) and the landmark at `i` passes it, the result
replaces position `i` by the position-blended copy and keeps everything
else verbatim. -/
theorem fuseByProximity_first_match (label : String) (x y : ℝ) :
    ∀ (l : List Landmark) (i : Nat) (c : Landmark), l[i]? = some c →
      (∀ j < i, ∀ cj : Landmark, l[j]? = some cj →
        ¬(cj.label = label ∧ cj.locked = false ∧
          Real.sqrt ((cj.x - x) ^ 2 + (cj.y - y) ^ 2) < 0.6)) →
      (c.label = label ∧ c.locked = false ∧
        Real.sqrt ((c.x - x) ^ 2 + (c.y - y) ^ 2) < 0.6) →
      fuseByProximity label x y l =
        some (l.set i
          { id := c.id, x := c.x * 0.7 + x * 0.3, y := c.y * 0.7 + y * 0.3,
            radius := c.radius, label := c.label, track_id := c.track_id,
            observation_count := c.observation_count, locked := c.locked }) := by
  intro l
  induction l with
  | nil => intro i c hc; simp at hc
  | cons c0 rest ih =>
    intro i c hc hskip hmatch
    cases i with
    | zero =>
      simp only [List.getElem?_cons_zero, Option.some.injEq] at hc
      subst hc
      simp only [fuseByProximity, if_pos hmatch]
      rfl
    | succ j =>
      simp only [List.getElem?_cons_succ] at hc
      have h0 : ¬(c0.label = label ∧ c0.locked = false ∧
          Real.sqrt ((c0.x - x) ^ 2 + (c0.y - y) ^ 2) < 0.6) :=
        hskip 0 (Nat.succ_pos j) c0 (by simp)
      have hskip' : ∀ k < j, ∀ cj : Landmark, rest[k]? = some cj →
          ¬(cj.label = label ∧ cj.locked = false ∧
            Real.sqrt ((cj.x - x) ^ 2 + (cj.y - y) ^ 2) < 0.6) := by
        intro k hk cj hcj
        exact hskip (k + 1) (Nat.succ_lt_succ hk) cj (by simpa using hcj)
      simp only [fuseByProximity, if_neg h0, ih j c hc hskip' hmatch, Option.map_some']
      rfl

/-- C6 amended: whenever the track-id tier finds nothing (the track
carries no `track_id`, or a `track_id` no landmark carries) and the
proximity scan's first unlocked same-label landmark within the 0.6 m
merge radius sits at position `i`, `_add_unique_landmark` blends only
that landmark's position (`pos = pos_old*0.7 + pos_new*0.3`); its
`observation_count` is NOT incremented and it is never locked by this
path — every other field, and every other landmark, is kept verbatim. -/
theorem C6_proximity_blend_amended (st : MapState) (i : Nat) (c : Landmark)
    (x y r : ℝ) (label : String) (track_id : Option Nat) (obs : Nat)
    (hc : st.craters[i]? = some c)
    (hskip : ∀ j < i, ∀ cj : Landmark, st.craters[j]? = some cj →
      ¬(cj.label = label ∧ cj.locked = false ∧
        Real.sqrt ((cj.x - x) ^ 2 + (cj.y - y) ^ 2) < 0.6))
    (hmatch : c.label = label ∧ c.locked = false ∧
      Real.sqrt ((c.x - x) ^ 2 + (c.y - y) ^ 2) < 0.6)
    (htid : ∀ tid, track_id = some tid → ∀ cj ∈ st.craters, cj.track_id ≠ some tid) :
    (st.add_unique_landmark x y r label track_id obs).craters =
      st.craters.set i
        { id := c.id, x := c.x * 0.7 + x * 0.3, y := c.y * 0.7 + y * 0.3,
          radius := c.radius, label := c.label, track_id := c.track_id,
          observation_count := c.observation_count, locked := c.locked } := by
  have hprox := fuseByProximity_first_match label x y st.craters i c hc hskip hmatch
  unfold MapState.add_unique_landmark
  cases track_id with
  | none => simp only [hprox]
  | some tid =>
    have hnone : fuseByTrackId tid x y st.craters = none :=
      fuseByTrackId_eq_none tid x y st.craters (htid tid rfl)
    simp only [hnone, hprox]

/-- First landmark of the C6 witness state: a different label, so the
proximity scan must skip it. -/
noncomputable def lkC6a : Landmark :=
  { id := 0, x := 1, y := 1, radius := 0.2, label := "alien",
    track_id := some 3, observation_count := 2, locked := false }

/-- Second landmark of the C6 witness state: the first proximity match. -/
noncomputable def lkC6b : Landmark :=
  { id := 1, x := 1, y := 1, radius := 0.3, label := "crater",
    track_id := none, observation_count := 5, locked := false }

/-- C6 witness state with a to-be-skipped landmark ahead of the match. -/
noncomputable def stC6g : MapState :=
  { width_m := 5, height_m := 5, kinematics := "ugv", x := 1, y := 1,
    theta := 0, craters := [lkC6a, lkC6b], crater_id_counter := 2 }

/-- Witness for the amended C6: a fuse carrying an unmatched track id
skips the wrong-label landmark at position 0 and blends only the position
of the landmark at position 1, leaving its `observation_count` and
`locked` flag (and the skipped landmark) unchanged. -/
theorem C6_proximity_blend_amended_witness :
    (stC6g.craters[1]? = some lkC6b ∧
     (∀ j < 1, ∀ cj : Landmark, stC6g.craters[j]? = some cj →
       ¬(cj.label = "crater" ∧ cj.locked = false ∧
         Real.sqrt ((cj.x - 1) ^ 2 + (cj.y - 1) ^ 2) < 0.6)) ∧
     (lkC6b.label = "crater" ∧ lkC6b.locked = false ∧
       Real.sqrt ((lkC6b.x - 1) ^ 2 + (lkC6b.y - 1) ^ 2) < 0.6) ∧
     (∀ tid, (some 9 : Option Nat) = some tid →
       ∀ cj ∈ stC6g.craters, cj.track_id ≠ some tid)) ∧
    (stC6g.add_unique_landmark 1 1 0.3 "crater" (some 9) 1).craters =
      stC6g.craters.set 1
        { id := lkC6b.id, x := lkC6b.x * 0.7 + 1 * 0.3, y := lkC6b.y * 0.7 + 1 * 0.3,
          radius := lkC6b.radius, label := lkC6b.label, track_id := lkC6b.track_id,
          observation_count := lkC6b.observation_count, locked := lkC6b.locked } := by
  have hc : stC6g.craters[1]? = some lkC6b := rfl
  have hskip : ∀ j < 1, ∀ cj : Landmark, stC6g.craters[j]? = some cj →
      ¬(cj.label = "crater" ∧ cj.locked = false ∧
        Real.sqrt ((cj.x - 1) ^ 2 + (cj.y - 1) ^ 2) < 0.6) := by
    intro j hj cj hcj
    cases j with
    | zero =>
      rw [show stC6g.craters[0]? = some lkC6a from rfl] at hcj
      injection hcj with hcj
      subst hcj
      intro hcond
      have := hcond.1
      simp [lkC6a] at this
    | succ n => exact absurd hj (by omega)
  have hmatch : lkC6b.label = "crater" ∧ lkC6b.locked = false ∧
      Real.sqrt ((lkC6b.x - 1) ^ 2 + (lkC6b.y - 1) ^ 2) < 0.6 := by
    refine ⟨rfl, rfl, ?_⟩
    simp only [lkC6b]
    norm_num [Real.sqrt_zero]
  have htid : ∀ tid, (some 9 : Option Nat) = some tid →
      ∀ cj ∈ stC6g.craters, cj.track_id ≠ some tid := by
    intro tid htid' cj hcj
    injection htid' with h9
    subst h9
    simp only [stC6g, List.mem_cons, List.mem_singleton] at hcj
    rcases hcj with rfl | rfl | h
    · simp [lkC6a]
    · simp [lkC6b]
    · simp at h
  exact ⟨⟨hc, hskip, hmatch, htid⟩,
    C6_proximity_blend_amended stC6g 1 lkC6b 1 1 0.3 "crater" (some 9) 1 hc hskip hmatch htid⟩

/-! ### C4 : pose bounds and unwrapped heading -/

/-- C4: after any `update_pose` call (both `MapManagerLaptop` and
`MapManager`), `x` lies in `[0, width_m]` and `y` in `[0, height_m]`
(hard-clamped silently), while `theta` is updated purely additively —
never wrapped — and can therefore exceed `±π`, as witnessed by a state
whose heading is already `10 > π`. -/
theorem C4_pose_bounds (st : MapState) (st2 : MapManagerState)
    (throttle steering dt : ℝ)
    (hw : 0 ≤ st.width_m) (hh : 0 ≤ st.height_m)
    (hw2 : 0 ≤ st2.width_m) (hh2 : 0 ≤ st2.height_m) :
    (0 ≤ (st.update_pose throttle steering dt).x ∧
      (st.update_pose throttle steering dt).x ≤ st.width_m ∧
      0 ≤ (st.update_pose throttle steering dt).y ∧
      (st.update_pose throttle steering dt).y ≤ st.height_m) ∧
    ((st.update_pose throttle steering dt).theta = st.theta +
      (if st.kinematics = "jetracer" then omegaJetracer (vOf throttle) steering
       else omegaUgv steering) * dt) ∧
    (0 ≤ (st2.update_pose throttle steering dt).x ∧
      (st2.update_pose throttle steering dt).x ≤ st2.width_m ∧
      0 ≤ (st2.update_pose throttle steering dt).y ∧
      (st2.update_pose throttle steering dt).y ≤ st2.height_m) ∧
    ((st2.update_pose throttle steering dt).theta = st2.theta + steering * 2.5 * dt) ∧
    Real.pi <
      (({ width_m := 5, height_m := 5, kinematics := "ugv", x := 1, y := 1,
          theta := 10, craters := [], crater_id_counter := 0 } : MapState).update_pose
        throttle steering 0).theta := by
  refine ⟨⟨?_, ?_, ?_, ?_⟩, ?_, ⟨?_, ?_, ?_, ?_⟩, ?_, ?_⟩
  · exact le_max_left 0 _
  · exact max_le hw (min_le_left _ _)
  · exact le_max_left 0 _
  · exact max_le hh (min_le_left _ _)
  · rfl
  · exact le_max_left 0 _
  · exact max_le hw2 (min_le_left _ _)
  · exact le_max_left 0 _
  · exact max_le hh2 (min_le_left _ _)
  · rfl
  · have hpi : Real.pi < 3.15 := Real.pi_lt_d2
    simp only [MapState.update_pose]
    rw [mul_zero, add_zero]
    linarith

/-- Concrete laptop-map state for the C4 witness. -/
noncomputable def stC4 : MapState :=
  { width_m := 5, height_m := 5, kinematics := "jetracer", x := 4.8, y := 0.2,
    theta := 1.5707963267948966, craters := [], crater_id_counter := 0 }

/-- Concrete simple-map state for the C4 witness. -/
noncomputable def st2C4 : MapManagerState :=
  { width_m := 2, height_m := 3, x := 1, y := 0.2, theta := 1.5707963267948966 }

/-- Witness for C4 at the configured start poses with a forward drive
command. -/
theorem C4_pose_bounds_witness :
    (0 ≤ stC4.width_m ∧ 0 ≤ stC4.height_m ∧ 0 ≤ st2C4.width_m ∧ 0 ≤ st2C4.height_m) ∧
    0 ≤ (stC4.update_pose 0.3 0.1 0.05).x ∧
    (stC4.update_pose 0.3 0.1 0.05).x ≤ stC4.width_m ∧
    0 ≤ (st2C4.update_pose 0.3 0.1 0.05).y ∧
    (st2C4.update_pose 0.3 0.1 0.05).y ≤ st2C4.height_m := by
  have hw : (0 : ℝ) ≤ stC4.width_m := by simp only [stC4]; norm_num
  have hh : (0 : ℝ) ≤ stC4.height_m := by simp only [stC4]; norm_num
  have hw2 : (0 : ℝ) ≤ st2C4.width_m := by simp only [st2C4]; norm_num
  have hh2 : (0 : ℝ) ≤ st2C4.height_m := by simp only [st2C4]; norm_num
  have h := C4_pose_bounds stC4 st2C4 0.3 0.1 0.05 hw hh hw2 hh2
  exact ⟨⟨hw, hh, hw2, hh2⟩, h.1.1, h.1.2.1, h.2.2.1.2.2.1, h.2.2.1.2.2.2⟩

/-! ### C7 : differential / skid-steer turn rate -/

/-- C7 (code evaluation): in the skid-steer branch, because `w = -w` is
applied whenever `steering < 0`, full-right steering (`steering = -1`)
yields `ω = +1.124` — the right-turn magnitude but rotated
counter-clockwise — instead of the `ω = steering * 1.124 = -1.124` that
the claim (and the branch's own `# RIGHT` comment) calls for; full-left
steering (`steering = 1`) yields `ω = +0.853` as claimed. So `ω` does NOT
carry the sign of negative steering. -/
theorem C7_ugv_omega_code_eval :
    omegaUgv (-1) = 1.124 ∧ omegaUgv 1 = 0.853 ∧
    omegaUgv (-1) ≠ (-1) * 1.124 ∧ 0 < omegaUgv (-1) := by
  have h1 : omegaUgv (-1) = 1.124 := by
    simp only [omegaUgv]
    rw [if_neg (by norm_num), if_pos (by norm_num)]
    norm_num
  have h2 : omegaUgv 1 = 0.853 := by
    simp only [omegaUgv]
    rw [if_pos (by norm_num)]
    norm_num
  exact ⟨h1, h2, by rw [h1]; norm_num, by rw [h1]; norm_num⟩

/-! ### C8 : Ackermann turn rate -/

/-- C8: in Ackermann (`'jetracer'`) mode, `ω = 0` whenever
`|v| ≤ ε = 0.01` regardless of steering; otherwise
`ω = v * (|steering| * curvature)` signed by the steering direction, with
curvature `1/1.43` for left turns and `1/1.085` for right turns — and the
two directions are not symmetric, as the full-left vs. full-right rates
at `v = 1.22` differ in magnitude. -/
theorem C8_ackermann_omega (throttle steering : ℝ) :
    (|vOf throttle| ≤ 0.01 → omegaJetracer (vOf throttle) steering = 0) ∧
    (0.01 < |vOf throttle| →
      omegaJetracer (vOf throttle) steering =
        if 0 < steering then vOf throttle * (|steering| * (1 / 1.43))
        else -(vOf throttle * (|steering| * (1 / 1.085)))) ∧
    omegaJetracer 1.22 1 ≠ -omegaJetracer 1.22 (-1) := by
  refine ⟨?_, ?_, ?_⟩
  · intro h
    simp only [omegaJetracer]
    rw [if_neg (not_lt.mpr h)]
  · intro h
    simp only [omegaJetracer]
    rw [if_pos h]
    split_ifs with hs
    · rw [abs_of_pos hs]
    · rw [neg_mul]
  · have hl : omegaJetracer 1.22 1 = 1.22 * (1 * (1 / 1.43)) := by
      simp only [omegaJetracer]
      rw [if_pos (by rw [abs_of_pos] <;> norm_num), if_pos (by norm_num)]
    have hr : omegaJetracer 1.22 (-1) = -(1.22 * (1 / 1.085)) := by
      simp only [omegaJetracer]
      rw [if_pos (by rw [abs_of_pos] <;> norm_num), if_neg (by norm_num)]
      rw [neg_mul]
      norm_num
    rw [hl, hr]
    norm_num

/-- Witness for C8: throttle 1 (so `|v| = 1.22 > 0.01`) with half-right
steering gives the right-turn formula. -/
theorem C8_ackermann_omega_witness :
    0.01 < |vOf 1| ∧
    omegaJetracer (vOf 1) (-(1 / 2)) = -(vOf 1 * (|(-(1 / 2) : ℝ)| * (1 / 1.085))) := by
  have hv : (0.01 : ℝ) < |vOf 1| := by
    rw [vOf, abs_of_pos (by norm_num)]
    norm_num
  have h := (C8_ackermann_omega 1 (-(1 / 2))).2.1 hv
  rw [h, if_neg (by norm_num)]
  exact ⟨hv, rfl⟩

/-! ### C10 : the projection preserves range -/

/-- Rotating a polar point of radius `d` and translating it moves it a
squared distance of exactly `d ^ 2` from the translation origin. -/
theorem rotate_translate_sq_dist (d a t : ℝ) :
    (d * Real.cos a * Real.cos t - d * Real.sin a * Real.sin t) ^ 2 +
      (d * Real.cos a * Real.sin t + d * Real.sin a * Real.cos t) ^ 2 = d ^ 2 := by
  have hc : d * Real.cos a * Real.cos t - d * Real.sin a * Real.sin t
      = d * Real.cos (a + t) := by
    rw [Real.cos_add]; ring
  have hs : d * Real.cos a * Real.sin t + d * Real.sin a * Real.cos t
      = d * Real.sin (a + t) := by
    rw [Real.sin_add]; ring
  rw [hc, hs,
    show (d * Real.cos (a + t)) ^ 2 + (d * Real.sin (a + t)) ^ 2
      = d ^ 2 * (Real.sin (a + t) ^ 2 + Real.cos (a + t) ^ 2) from by ring,
    Real.sin_sq_add_cos_sq, mul_one]

/-- C10: the world point produced for a fused track by `update_craters`
lies exactly at the track's depth from the current pose — for every pose,
box and image width the bearing projection followed by rotation and
translation preserves the range (`hypot(gx - x, gy - y) = |depth|`, and
`= depth` whenever the depth is nonnegative); the projection only picks
the direction. -/
theorem C10_projection_preserves_range (px py theta : ℝ) (box : Box)
    (depth img_width : ℝ) :
    Real.sqrt (((projectToGlobal px py theta box depth img_width).1 - px) ^ 2 +
      ((projectToGlobal px py theta box depth img_width).2 - py) ^ 2) = |depth| ∧
    (0 ≤ depth →
      Real.sqrt (((projectToGlobal px py theta box depth img_width).1 - px) ^ 2 +
        ((projectToGlobal px py theta box depth img_width).2 - py) ^ 2) = depth) := by
  have hsq : ((projectToGlobal px py theta box depth img_width).1 - px) ^ 2 +
      ((projectToGlobal px py theta box depth img_width).2 - py) ^ 2 = depth ^ 2 := by
    simp only [projectToGlobal]
    rw [show px + (depth * Real.cos (angle_offset_of box img_width) * Real.cos theta -
        depth * Real.sin (angle_offset_of box img_width) * Real.sin theta) - px
      = depth * Real.cos (angle_offset_of box img_width) * Real.cos theta -
        depth * Real.sin (angle_offset_of box img_width) * Real.sin theta from by ring]
    rw [show py + (depth * Real.cos (angle_offset_of box img_width) * Real.sin theta +
        depth * Real.sin (angle_offset_of box img_width) * Real.cos theta) - py
      = depth * Real.cos (angle_offset_of box img_width) * Real.sin theta +
        depth * Real.sin (angle_offset_of box img_width) * Real.cos theta from by ring]
    exact rotate_translate_sq_dist depth (angle_offset_of box img_width) theta
  have habs : Real.sqrt (((projectToGlobal px py theta box depth img_width).1 - px) ^ 2 +
      ((projectToGlobal px py theta box depth img_width).2 - py) ^ 2) = |depth| := by
    rw [hsq, Real.sqrt_sq_eq_abs]
  exact ⟨habs, fun hd => by rw [habs, abs_of_nonneg hd]⟩

/-- Witness for C10: a concrete off-center box at depth 2 in a 640-pixel
image lands exactly 2 meters from the pose. -/
theorem C10_projection_preserves_range_witness :
    (0 : ℝ) ≤ 2 ∧
    Real.sqrt (((projectToGlobal 1 1 0.5 ⟨100, 80, 300, 200⟩ 2 640).1 - 1) ^ 2 +
      ((projectToGlobal 1 1 0.5 ⟨100, 80, 300, 200⟩ 2 640).2 - 1) ^ 2) = 2 :=
  ⟨by norm_num,
   (C10_projection_preserves_range 1 1 0.5 ⟨100, 80, 300, 200⟩ 2 640).2 (by norm_num)⟩

/-! ### C1 : the decision rule against its specification -/

/-- Normalization of an angle into the interval `(-π, π]`, the spec's
stated convention for a bearing relative to heading. -/
noncomputable def normalizeAngle (a : ℝ) : ℝ := ((a : Real.Angle)).toReal

/-- Bearing of a landmark as the spec words it: `atan2(dy, dx) - theta`
normalized to `(-π, π]`. -/
noncomputable def bearingSpec (p : Pose) (c : Landmark) : ℝ :=
  normalizeAngle (atan2 (c.y - p.y) (c.x - p.x) - p.theta)

open Classical in
/-- The decision rule exactly as the spec words it (for comparison with
the source-derived `DecisionSystem.decide`): partition by the normalized
bearing into front (`|bearing| < 0.35`), left (positive bearing, front
excluded) and right (the rest); if some front landmark is blocking then
`turn_left` when no left landmark is blocking, else `turn_right` when no
right landmark is blocking, else `stop`; `go_straight` whenever no front
landmark is blocking. -/
noncomputable def decideSpec (margin : ℝ) (p : Pose) (craters : List Landmark) :
    Decision :=
  if ∃ c ∈ craters, |bearingSpec p c| < 0.35 ∧ isBlocking margin p c then
    if ¬∃ c ∈ craters, (¬|bearingSpec p c| < 0.35 ∧ 0 < bearingSpec p c) ∧
        isBlocking margin p c then .turn_left
    else if ¬∃ c ∈ craters, (¬|bearingSpec p c| < 0.35 ∧ ¬0 < bearingSpec p c) ∧
        isBlocking margin p c then .turn_right
    else .stop
  else .go_straight

/-- The code's renormalization `atan2(sin(angle), cos(angle))` is exactly
normalization into `(-π, π]`. -/
theorem atan2_sin_cos (a : ℝ) : atan2 (Real.sin a) (Real.cos a) = normalizeAngle a := by
  unfold atan2 normalizeAngle
  rw [Complex.mk_eq_add_mul_I]
  have hc : Real.cos ((a : Real.Angle)).toReal = Real.cos a := by
    rw [Real.Angle.cos_toReal, Real.Angle.cos_coe]
  have hs : Real.sin ((a : Real.Angle)).toReal = Real.sin a := by
    rw [Real.Angle.sin_toReal, Real.Angle.sin_coe]
  rw [← hc, ← hs, Complex.ofReal_cos, Complex.ofReal_sin]
  exact Complex.arg_cos_add_sin_mul_I (Real.Angle.toReal_mem_Ioc _)

/-- The bearing computed by the code coincides with the spec's normalized
bearing. -/
theorem bearingOf_eq_bearingSpec : bearingOf = bearingSpec :=
  funext fun _ => funext fun _ => atan2_sin_cos _

/-- C1: `DecisionSystem.decide` computes exactly the spec's rule — each
landmark is partitioned by its bearing relative to heading (normalized to
`(-π, π]`: the normalization lands in that interval and preserves the
angle) into front / left / right, blocking means
`distance < radius + safe_margin`, and the decision is `turn_left`,
`turn_right`, `stop` or `go_straight` in the spec's exact order. -/
theorem C1_decide_matches_spec :
    (∀ (margin : ℝ) (p : Pose) (craters : List Landmark),
      DecisionSystem.decide margin p craters = decideSpec margin p craters) ∧
    (∀ a : ℝ, normalizeAngle a ∈ Set.Ioc (-Real.pi) Real.pi ∧
      ((normalizeAngle a : Real.Angle) = (a : Real.Angle))) := by
  constructor
  · intro margin p craters
    unfold DecisionSystem.decide decideSpec frontSector leftSector rightSector
    rw [bearingOf_eq_bearingSpec]
    by_cases h1 : ∃ c ∈ craters, |bearingSpec p c| < 0.35 ∧ isBlocking margin p c
    · rw [if_pos h1, if_pos h1]
      by_cases h2 : ∃ c ∈ craters,
          (¬|bearingSpec p c| < 0.35 ∧ 0 < bearingSpec p c) ∧ isBlocking margin p c
      · rw [if_neg (not_not_intro h2), if_neg (not_not_intro h2)]
        by_cases h3 : ∃ c ∈ craters,
            (¬|bearingSpec p c| < 0.35 ∧ ¬0 < bearingSpec p c) ∧ isBlocking margin p c
        · rw [if_neg (not_not_intro h3), if_neg (not_not_intro h3)]
        · rw [if_pos h3, if_pos h3]
      · rw [if_pos h2, if_pos h2]
    · rw [if_neg h1, if_neg h1]
  · intro a
    exact ⟨Real.Angle.toReal_mem_Ioc _, Real.Angle.coe_toReal _⟩

/-! ### C5 : greedy matching properties -/

/-- The argmax fold returns either the seed or a list element. -/
theorem foldl_best_mem (m : Nat → Nat → ℚ) :
    ∀ (ps : List (Nat × Nat)) (a : Nat × Nat),
      ps.foldl (fun best q => if m best.1 best.2 < m q.1 q.2 then q else best) a ∈ a :: ps := by
  intro ps
  induction ps with
  | nil => intro a; simp
  | cons q ps ih =>
    intro a
    simp only [List.foldl_cons]
    have h := ih (if m a.1 a.2 < m q.1 q.2 then q else a)
    rcases List.mem_cons.mp h with h1 | h1
    · by_cases hc : m a.1 a.2 < m q.1 q.2
      · rw [if_pos hc] at h1 ⊢
        rw [h1]
        simp
      · rw [if_neg hc] at h1 ⊢
        rw [h1]
        simp
    · exact List.mem_cons_of_mem _ (List.mem_cons_of_mem _ h1)

/-- The argmax fold result dominates the seed. -/
theorem foldl_best_ge_init (m : Nat → Nat → ℚ) :
    ∀ (ps : List (Nat × Nat)) (a : Nat × Nat),
      m a.1 a.2 ≤
        m (ps.foldl (fun best q => if m best.1 best.2 < m q.1 q.2 then q else best) a).1
          (ps.foldl (fun best q => if m best.1 best.2 < m q.1 q.2 then q else best) a).2 := by
  intro ps
  induction ps with
  | nil => intro a; simp
  | cons q ps ih =>
    intro a
    simp only [List.foldl_cons]
    refine le_trans ?_ (ih (if m a.1 a.2 < m q.1 q.2 then q else a))
    by_cases hc : m a.1 a.2 < m q.1 q.2
    · rw [if_pos hc]; exact le_of_lt hc
    · rw [if_neg hc]

/-- The argmax fold result dominates every list element. -/
theorem foldl_best_ge_mem (m : Nat → Nat → ℚ) :
    ∀ (ps : List (Nat × Nat)) (a q : Nat × Nat), q ∈ ps →
      m q.1 q.2 ≤
        m (ps.foldl (fun best r => if m best.1 best.2 < m r.1 r.2 then r else best) a).1
          (ps.foldl (fun best r => if m best.1 best.2 < m r.1 r.2 then r else best) a).2 := by
  intro ps
  induction ps with
  | nil => intro a q hq; simp at hq
  | cons q' ps ih =>
    intro a q hq
    simp only [List.foldl_cons]
    rcases List.mem_cons.mp hq with rfl | hq'
    · refine le_trans ?_ (foldl_best_ge_init m ps (if m a.1 a.2 < m q.1 q.2 then q else a))
      by_cases hc : m a.1 a.2 < m q.1 q.2
      · rw [if_pos hc]
      · rw [if_neg hc]; exact le_of_not_lt hc
    · exact ih _ q hq'

/-- `argmaxRM` returns an element of the pair list. -/
theorem argmaxRM_mem (m : Nat → Nat → ℚ) (l : List (Nat × Nat)) (b : Nat × Nat)
    (hb : argmaxRM m l = some b) : b ∈ l := by
  cases l with
  | nil => simp [argmaxRM] at hb
  | cons p ps =>
    simp only [argmaxRM, Option.some.injEq] at hb
    rw [← hb]
    exact foldl_best_mem m ps p

/-- `argmaxRM` returns a maximal entry. -/
theorem argmaxRM_ge (m : Nat → Nat → ℚ) (l : List (Nat × Nat)) (b : Nat × Nat)
    (hb : argmaxRM m l = some b) : ∀ q ∈ l, m q.1 q.2 ≤ m b.1 b.2 := by
  cases l with
  | nil => intro q hq; simp at hq
  | cons p ps =>
    simp only [argmaxRM, Option.some.injEq] at hb
    intro q hq
    rcases List.mem_cons.mp hq with rfl | hq'
    · rw [← hb]; exact foldl_best_ge_init m ps q
    · rw [← hb]; exact foldl_best_ge_mem m ps p q hq'

/-- Membership in a fold of appended blocks. -/
theorem mem_foldr_append {α β : Type} (f : α → List β) :
    ∀ (l : List α) (b : β),
      b ∈ l.foldr (fun x acc => f x ++ acc) [] ↔ ∃ a ∈ l, b ∈ f a := by
  intro l
  induction l with
  | nil => simp
  | cons x xs ih => intro b; simp [ih]

/-- A pair lies in `allPairs nt nd` exactly when both indices are in
range. -/
theorem mem_allPairs (nt nd : Nat) (p : Nat × Nat) :
    p ∈ allPairs nt nd ↔ p.1 < nt ∧ p.2 < nd := by
  simp only [allPairs, mem_foldr_append, List.mem_range, List.mem_map]
  constructor
  · rintro ⟨t, ht, d, hd, rfl⟩
    exact ⟨ht, hd⟩
  · intro h
    exact ⟨p.1, h.1, p.2, h.2, by simp⟩

/-- The intersection area is nonnegative. -/
theorem interArea_nonneg (a b : Box) : 0 ≤ interArea a b :=
  mul_nonneg (le_max_left 0 _) (le_max_left 0 _)

/-- IoU values are nonnegative. -/
theorem compute_iou_nonneg (a b : Box) : 0 ≤ compute_iou a b := by
  unfold compute_iou
  split_ifs with h
  · exact le_refl 0
  · exact div_nonneg (interArea_nonneg a b) (le_of_lt (lt_of_not_le h))

/-- Initial matrix entries are nonnegative. -/
theorem initMatrix_nonneg (tracks : List Track) (dets : List Detection)
    (t d : Nat) : 0 ≤ initMatrix tracks dets t d := by
  unfold initMatrix
  cases tracks[t]? with
  | none => exact le_refl 0
  | some tr =>
    cases dets[d]? with
    | none => exact le_refl 0
    | some de =>
      show 0 ≤ if tr.label = de.label then compute_iou tr.box de.box else 0
      split_ifs with h
      · exact compute_iou_nonneg _ _
      · exact le_refl 0

/-- Zeroing preserves nonnegativity and never increases an entry. -/
theorem zeroRC_le (m : Nat → Nat → ℚ) (hm : ∀ i j, 0 ≤ m i j) (t d i j : Nat) :
    0 ≤ zeroRC m t d i j ∧ zeroRC m t d i j ≤ m i j := by
  unfold zeroRC
  split_ifs with h
  · exact ⟨le_refl 0, hm i j⟩
  · exact ⟨hm i j, le_refl _⟩

/-- Every pair committed by the greedy loop reaches the threshold on the
loop's entry matrix and has in-range indices. -/
theorem greedyLoop_committed (thr : ℚ) (nt nd : Nat) :
    ∀ (fuel : Nat) (m : Nat → Nat → ℚ), (∀ i j, 0 ≤ m i j) →
      ∀ p ∈ greedyLoop thr nt nd fuel m, thr ≤ m p.1 p.2 ∧ p ∈ allPairs nt nd := by
  intro fuel
  induction fuel with
  | zero => intro m _ p hp; simp [greedyLoop] at hp
  | succ fuel ih =>
    intro m hm p hp
    rw [greedyLoop] at hp
    cases hb : argmaxRM m (allPairs nt nd) with
    | none => rw [hb] at hp; simp at hp
    | some b =>
      obtain ⟨t, d⟩ := b
      rw [hb] at hp
      by_cases hlt : m t d < thr
      · simp only [if_pos hlt] at hp
        simp at hp
      · simp only [if_neg hlt] at hp
        rcases List.mem_cons.mp hp with rfl | hp'
        · exact ⟨le_of_not_lt hlt, argmaxRM_mem m _ _ hb⟩
        · obtain ⟨h1, h2⟩ := ih (zeroRC m t d) (fun i j => (zeroRC_le m hm t d i j).1) p hp'
          exact ⟨le_trans h1 (zeroRC_le m hm t d p.1 p.2).2, h2⟩

/-- With a positive threshold the greedy loop commits pairwise-distinct
rows and columns, in non-increasing order of the entry matrix. -/
theorem greedyLoop_pairwise (thr : ℚ) (hthr : 0 < thr) (nt nd : Nat) :
    ∀ (fuel : Nat) (m : Nat → Nat → ℚ), (∀ i j, 0 ≤ m i j) →
      (greedyLoop thr nt nd fuel m).Pairwise (fun p q =>
        q.1 ≠ p.1 ∧ q.2 ≠ p.2 ∧ m q.1 q.2 ≤ m p.1 p.2) := by
  intro fuel
  induction fuel with
  | zero => intro m _; simp [greedyLoop]
  | succ fuel ih =>
    intro m hm
    rw [greedyLoop]
    cases hb : argmaxRM m (allPairs nt nd) with
    | none => simp
    | some b =>
      obtain ⟨t, d⟩ := b
      by_cases hlt : m t d < thr
      · simp only [if_pos hlt]
        simp
      · simp only [if_neg hlt]
        have hmz : ∀ i j, 0 ≤ zeroRC m t d i j := fun i j => (zeroRC_le m hm t d i j).1
        have hrest := ih (zeroRC m t d) hmz
        have hneq : ∀ q ∈ greedyLoop thr nt nd fuel (zeroRC m t d),
            q.1 ≠ t ∧ q.2 ≠ d ∧ zeroRC m t d q.1 q.2 = m q.1 q.2 := by
          intro q hq
          obtain ⟨hq1, _⟩ := greedyLoop_committed thr nt nd fuel (zeroRC m t d) hmz q hq
          have hz : ¬(q.1 = t ∨ q.2 = d) := by
            intro hor
            rw [show zeroRC m t d q.1 q.2 = 0 from by unfold zeroRC; rw [if_pos hor]] at hq1
            exact absurd (lt_of_lt_of_le hthr hq1) (lt_irrefl 0)
          push_neg at hz
          exact ⟨hz.1, hz.2, by unfold zeroRC; rw [if_neg (by push_neg; exact hz)]⟩
        refine List.Pairwise.cons ?_ ?_
        · intro q hq
          obtain ⟨hq1, hq2, hq3⟩ := hneq q hq
          obtain ⟨_, hmem⟩ := greedyLoop_committed thr nt nd fuel (zeroRC m t d) hmz q hq
          exact ⟨hq1, hq2, argmaxRM_ge m _ _ hb q hmem⟩
        · refine List.Pairwise.imp_of_mem ?_ hrest
          intro p q hp hq hr
          obtain ⟨_, _, hp3⟩ := hneq p hp
          obtain ⟨_, _, hq3⟩ := hneq q hq
          exact ⟨hr.1, hr.2.1, by rw [← hp3, ← hq3]; exact hr.2.2⟩

/-- A positive initial-matrix entry exposes its track and detection: both
lookups succeed, the labels agree, and the entry is their box IoU. -/
theorem initMatrix_pos (tracks : List Track) (dets : List Detection) (t d : Nat)
    (h : 0 < initMatrix tracks dets t d) :
    ∃ tr de, tracks[t]? = some tr ∧ dets[d]? = some de ∧ tr.label = de.label ∧
      initMatrix tracks dets t d = compute_iou tr.box de.box := by
  unfold initMatrix at h ⊢
  cases htr : tracks[t]? with
  | none => rw [htr] at h; simp at h
  | some tr =>
    cases hde : dets[d]? with
    | none => rw [htr, hde] at h; simp at h
    | some de =>
      simp only [htr, hde] at h ⊢
      by_cases hl : tr.label = de.label
      · exact ⟨tr, de, rfl, rfl, hl, by rw [if_pos hl]⟩
      · rw [if_neg hl] at h
        exact absurd h (lt_irrefl 0)

/-- C5: in every tracker update with a positive IoU threshold (default
0.3), the greedy matcher commits pairs in non-increasing order of the IoU
matrix, reuses no track row and no detection column (each track and each
detection is matched at most once), and every committed pair reaches the
threshold on a same-label (track, detection) pair whose matrix entry is
exactly their box IoU — cross-label matches never happen. -/
theorem C5_greedy_matching (tr : ObjectTracker) (dets : List Detection)
    (hthr : 0 < tr.iou_threshold) :
    ((greedyMatches tr.iou_threshold tr.tracks dets).Pairwise (fun p q =>
        q.1 ≠ p.1 ∧ q.2 ≠ p.2 ∧
        initMatrix tr.tracks dets q.1 q.2 ≤ initMatrix tr.tracks dets p.1 p.2)) ∧
    (∀ p ∈ greedyMatches tr.iou_threshold tr.tracks dets,
      p.1 < tr.tracks.length ∧ p.2 < dets.length ∧
      ∃ t de, tr.tracks[p.1]? = some t ∧ dets[p.2]? = some de ∧
        t.label = de.label ∧ tr.iou_threshold ≤ compute_iou t.box de.box ∧
        initMatrix tr.tracks dets p.1 p.2 = compute_iou t.box de.box) := by
  unfold greedyMatches
  split_ifs with hguard
  · exact ⟨List.Pairwise.nil, fun p hp => absurd hp (List.not_mem_nil p)⟩
  · constructor
    · exact greedyLoop_pairwise tr.iou_threshold hthr tr.tracks.length dets.length
        (tr.tracks.length * dets.length + 1) (initMatrix tr.tracks dets)
        (initMatrix_nonneg tr.tracks dets)
    · intro p hp
      obtain ⟨h1, h2⟩ := greedyLoop_committed tr.iou_threshold tr.tracks.length dets.length
        (tr.tracks.length * dets.length + 1) (initMatrix tr.tracks dets)
        (initMatrix_nonneg tr.tracks dets) p hp
      obtain ⟨hr1, hr2⟩ := (mem_allPairs _ _ p).mp h2
      obtain ⟨t, de, ht, hde, hl, heq⟩ :=
        initMatrix_pos tr.tracks dets p.1 p.2 (lt_of_lt_of_le hthr h1)
      exact ⟨hr1, hr2, t, de, ht, hde, hl, by rw [← heq]; exact h1, heq⟩

/-- Concrete tracker for the C5 witness: one crater track and one
overlapping same-label detection at the default threshold. -/
def trC5 : ObjectTracker :=
  { iou_threshold := 3 / 10, min_hits_to_confirm := 3, max_misses_to_lose := 5,
    tracks := [Track.new 1 ⟨0, 0, 2, 2⟩ 1 "crater"], id_counter := 1 }

/-- Detections for the C5 witness. -/
def detsC5 : List Detection := [{ box := ⟨0, 0, 2, 2⟩, depth := 1, label := "crater" }]

/-- Witness for C5 at the concrete tracker. -/
theorem C5_greedy_matching_witness :
    (0 : ℚ) < trC5.iou_threshold ∧
    (((greedyMatches trC5.iou_threshold trC5.tracks detsC5).Pairwise (fun p q =>
        q.1 ≠ p.1 ∧ q.2 ≠ p.2 ∧
        initMatrix trC5.tracks detsC5 q.1 q.2 ≤ initMatrix trC5.tracks detsC5 p.1 p.2)) ∧
    (∀ p ∈ greedyMatches trC5.iou_threshold trC5.tracks detsC5,
      p.1 < trC5.tracks.length ∧ p.2 < detsC5.length ∧
      ∃ t de, trC5.tracks[p.1]? = some t ∧ detsC5[p.2]? = some de ∧
        t.label = de.label ∧ trC5.iou_threshold ≤ compute_iou t.box de.box ∧
        initMatrix trC5.tracks detsC5 p.1 p.2 = compute_iou t.box de.box)) :=
  ⟨by norm_num [trC5], C5_greedy_matching trC5 detsC5 (by norm_num [trC5])⟩

/-! ### C3 : track lifecycle -/

/-- C3: a track is created Tentative with the spawning detection counted
as its first hit; a miss bumps the miss streak and resets the hit streak;
the state step makes a track Confirmed exactly when it already was
Confirmed or is Tentative with `hits ≥ min_hits_to_confirm` (and its
misses are below the loss bound) — so Tentative→Confirmed fires exactly
once, at the threshold, and Confirmed never reverts to Tentative; a track
is Lost exactly when its consecutive misses reach `max_misses_to_lose`
(or it already was Lost); after every `update` no Lost track remains in
the active set, and every output entry comes from a Confirmed track of
the new active set — so a purged track can never appear in later
output. -/
theorem C3_track_lifecycle :
    (∀ (id : Nat) (b : Box) (d : ℚ) (l : String),
      (Track.new id b d l).state = .TENTATIVE ∧ (Track.new id b d l).hits = 1 ∧
      (Track.new id b d l).misses = 0) ∧
    (∀ t : Track, (Track.mark_missed t).misses = t.misses + 1 ∧
      (Track.mark_missed t).hits = 0) ∧
    (∀ (minHits maxMisses : Nat) (t : Track),
      ((stepTrackState minHits maxMisses t).state = .CONFIRMED ↔
        (t.state = .CONFIRMED ∨ (t.state = .TENTATIVE ∧ minHits ≤ t.hits)) ∧
          t.misses < maxMisses) ∧
      ((stepTrackState minHits maxMisses t).state = .TENTATIVE ↔
        t.state = .TENTATIVE ∧ t.hits < minHits ∧ t.misses < maxMisses) ∧
      ((stepTrackState minHits maxMisses t).state = .LOST ↔
        t.state = .LOST ∨ maxMisses ≤ t.misses)) ∧
    (∀ (tr : ObjectTracker) (dets : List Detection) (t : Track),
      t ∈ (tr.update dets).1.tracks → t.state ≠ .LOST) ∧
    (∀ (tr : ObjectTracker) (dets : List Detection) (o : ConfirmedOut),
      o ∈ (tr.update dets).2 → ∃ t, t ∈ (tr.update dets).1.tracks ∧
        t.state = .CONFIRMED ∧ o.track_id = t.track_id ∧
        o.observation_count = t.total_observations) := by
  refine ⟨fun id b d l => ⟨rfl, rfl, rfl⟩, fun t => ⟨rfl, rfl⟩, ?_, ?_, ?_⟩
  · intro minHits maxMisses t
    cases ht : t.state <;>
      by_cases hh : minHits ≤ t.hits <;>
      by_cases hm : maxMisses ≤ t.misses <;>
      simp [stepTrackState, ht, hh, hm] <;>
      omega
  · intro tr dets t ht
    simp only [ObjectTracker.update] at ht
    have := List.of_mem_filter ht
    simpa using this
  · intro tr dets o ho
    simp only [ObjectTracker.update] at ho
    obtain ⟨t, ht, rfl⟩ := List.mem_map.mp ho
    have h1 := List.mem_filter.mp ht
    refine ⟨t, ?_, ?_, rfl, rfl⟩
    · simp only [ObjectTracker.update]
      exact h1.1
    · simpa using h1.2

/-- Concrete empty tracker for the C3 witness. -/
def trC3 : ObjectTracker :=
  { iou_threshold := 3 / 10, min_hits_to_confirm := 3, max_misses_to_lose := 5,
    tracks := [], id_counter := 0 }

/-- Detections for the C3 witness. -/
def detsC3 : List Detection := [{ box := ⟨0, 0, 2, 2⟩, depth := 1, label := "crater" }]

/-- Witness for C3: the track spawned by an unmatched detection survives
the update as a non-Lost (Tentative) track. -/
theorem C3_track_lifecycle_witness :
    Track.new 1 ⟨0, 0, 2, 2⟩ 1 "crater" ∈ (trC3.update detsC3).1.tracks ∧
    (Track.new 1 ⟨0, 0, 2, 2⟩ 1 "crater").state ≠ .LOST :=
  ⟨by decide, C3_track_lifecycle.2.2.2.1 trC3 detsC3 _ (by decide)⟩

end LunarCore
